import Mathlib

/-!
Verification development for a pair of line-delimited JSON-RPC-style
capability servers:

* the "simple server" (tools `echo` and `add`), and
* the "prompts server" (tool `markdown_summary`, prompt templates
  `qa/basic` and `refactor/function`).

Both read newline-delimited JSON requests, dispatch on `method`, validate
`params` against per-tool zod schemas, and write one response envelope per
request.  The development embeds the servers as pure functions: JSON values
are an inductive type, JavaScript runtime behaviours that the servers rely
on (property access, truthiness, `JSON.parse` / `JSON.stringify`,
`String.prototype.trim`, UTF-16 `length`) are modelled explicitly, and the
readline loop becomes a fold over the list of input lines.
-/

/-! ## JSON values

`Json` is the value domain of `JSON.parse`.  Arrays and objects carry their
children through the mutually defined `JsonList` / `JsonFields` so that
equality is decidable and all functions reduce in the kernel.  An absent
value (JavaScript `undefined`) is represented as `Option.none` at use
sites; `jnull` is JSON `null`.  Numbers are modelled as integers: every
numeric value the servers produce or that the claims mention is an
integer. -/

mutual

inductive Json where
  | jnull
  | jbool (b : Bool)
  | jnum (n : Int)
  | jstr (s : String)
  | jarr (elems : JsonList)
  | jobj (fields : JsonFields)
deriving DecidableEq, Repr

inductive JsonList where
  | nil
  | cons (hd : Json) (tl : JsonList)
deriving DecidableEq, Repr

inductive JsonFields where
  | nil
  | cons (k : String) (v : Json) (tl : JsonFields)
deriving DecidableEq, Repr

end

/-- Build a `JsonList` from a `List Json` (literal convenience). -/
def JsonList.ofList : List Json → JsonList
  | [] => .nil
  | x :: xs => .cons x (JsonList.ofList xs)

/-- Build `JsonFields` from an association list (literal convenience). -/
def JsonFields.ofList : List (String × Json) → JsonFields
  | [] => .nil
  | (k, v) :: xs => .cons k v (JsonFields.ofList xs)

/-- JSON array from a Lean list. -/
def Json.arr (xs : List Json) : Json := .jarr (JsonList.ofList xs)

/-- JSON object from a Lean association list. -/
def Json.obj (fs : List (String × Json)) : Json := .jobj (JsonFields.ofList fs)

/-- Number of fields of a `JsonFields`. -/
def JsonFields.length : JsonFields → Nat
  | .nil => 0
  | .cons _ _ tl => 1 + tl.length

/-- Look up key `k`; keys are unique in any object built by the parser or
the servers, and the first match is returned. -/
def JsonFields.get : JsonFields → String → Option Json
  | .nil, _ => none
  | .cons k v tl, key => if k = key then some v else tl.get key

/-- Whether key `k` is present. -/
def JsonFields.hasKey : JsonFields → String → Bool
  | .nil, _ => false
  | .cons k _ tl, key => k = key || tl.hasKey key

/-- JavaScript property read `value[k]`: objects yield the field when
present; every other value (including `null`, whose property reads would
throw and are handled separately by the callers) yields `undefined`,
i.e. `none`.  The servers only read properties that plain JSON values do
not otherwise provide, so primitives yield `undefined` here exactly as in
the runtime. -/
def jsGet : Json → String → Option Json
  | .jobj fs, k => fs.get k
  | _, _ => none

/-- `JSON.parse` object semantics for a duplicated key: the later binding
overwrites the earlier one in place (first-insertion key order is kept). -/
def JsonFields.setKey : JsonFields → String → Json → JsonFields
  | .nil, k, v => .cons k v .nil
  | .cons k0 v0 tl, k, v =>
    if k0 = k then .cons k0 v tl else .cons k0 v0 (tl.setKey k v)

/-- JavaScript truthiness of a JSON value (`params || ...` in the source). -/
def jsTruthy : Json → Bool
  | .jnull => false
  | .jbool b => b
  | .jnum n => n ≠ 0
  | .jstr s => s ≠ ""
  | .jarr _ => true
  | .jobj _ => true

/-- `v || default` on an optional JSON value (`undefined` is falsy). -/
def jsOrElse (v : Option Json) (dflt : Json) : Json :=
  match v with
  | some j => if jsTruthy j then j else dflt
  | none => dflt

/-- Template-literal stringification used by the thrown error messages
(for example `Unknown tool: <name>`): strings and primitives print as in
JavaScript, `undefined` prints as `"undefined"`. -/
def jsDisplay : Option Json → String
  | none => "undefined"
  | some .jnull => "null"
  | some (.jbool b) => cond b "true" "false"
  | some (.jnum n) => toString n
  | some (.jstr s) => s
  | some (.jarr _) => ""
  | some (.jobj _) => "[object Object]"

/-! ## Serialization (`JSON.stringify`)

Key order is field order, which is insertion order for objects the servers
construct.  Control characters and `"`/`\` are escaped as `JSON.stringify`
does. -/

/-- Hexadecimal digit for `n < 16`. -/
def hexDigit (n : Nat) : Char :=
  if n < 10 then Char.ofNat (48 + n) else Char.ofNat (87 + (n - 10))

/-- Escape one character for a JSON string literal. -/
def escapeJsonChar (c : Char) : List Char :=
  if c = '"' then ['\\', '"']
  else if c = '\\' then ['\\', '\\']
  else if c = '\n' then ['\\', 'n']
  else if c = '\t' then ['\\', 't']
  else if c = '\r' then ['\\', 'r']
  else if c = Char.ofNat 8 then ['\\', 'b']
  else if c = Char.ofNat 12 then ['\\', 'f']
  else if c.toNat < 32 then
    ['\\', 'u', '0', '0', hexDigit (c.toNat / 16), hexDigit (c.toNat % 16)]
  else [c]

/-- Escape a whole string for a JSON string literal. -/
def escapeJsonString (s : String) : String :=
  String.mk (s.data.flatMap escapeJsonChar)

mutual

/-- `JSON.stringify` of a JSON value. -/
def serializeJson : Json → String
  | .jnull => "null"
  | .jbool b => cond b "true" "false"
  | .jnum n => toString n
  | .jstr s => "\"" ++ escapeJsonString s ++ "\""
  | .jarr xs => "[" ++ serializeList xs true ++ "]"
  | .jobj fs => "\x7b" ++ serializeFields fs true ++ "\x7d"

/-- Comma-separated serialization of array elements. -/
def serializeList : JsonList → Bool → String
  | .nil, _ => ""
  | .cons x tl, first =>
    (cond first "" ",") ++ serializeJson x ++ serializeList tl false

/-- Comma-separated serialization of object fields. -/
def serializeFields : JsonFields → Bool → String
  | .nil, _ => ""
  | .cons k v tl, first =>
    (cond first "" ",") ++ "\"" ++ escapeJsonString k ++ "\":" ++
      serializeJson v ++ serializeFields tl false

end

/-! ## Parsing (`JSON.parse`)

A recursive-descent parser over the characters of one input line, with a
fuel argument that makes totality structural; the fuel supplied by
`parseJson` is always sufficient for its input.  The parser implements
strict JSON with one restriction: numerals are integers (no fraction or
exponent part).  Every numeral in the servers' registries, the spec's
scenarios and the claims is an integer.  Duplicate object keys follow
`JSON.parse`: the later binding wins, first-insertion key order is kept. -/

/-- JSON insignificant whitespace. -/
def jsonWs (c : Char) : Bool := c = ' ' || c = '\t' || c = '\n' || c = '\r'

/-- Drop leading JSON whitespace. -/
def skipJsonWs (cs : List Char) : List Char := cs.dropWhile jsonWs

/-- Numeric value of a digit list. -/
def digitsToNat (ds : List Char) : Nat :=
  ds.foldl (fun n c => 10 * n + (c.toNat - 48)) 0

/-- Parse a JSON natural numeral (strict: no leading zeros). -/
def parseNat (cs : List Char) : Option (Nat × List Char) :=
  let ds := cs.takeWhile Char.isDigit
  let rest := cs.dropWhile Char.isDigit
  match ds with
  | [] => none
  | [d] => some (d.toNat - 48, rest)
  | d :: _ :: _ => if d = '0' then none else some (digitsToNat ds, rest)

/-- Value of a hexadecimal digit, if it is one. -/
def hexVal (c : Char) : Option Nat :=
  if '0' ≤ c ∧ c ≤ '9' then some (c.toNat - 48)
  else if 'a' ≤ c ∧ c ≤ 'f' then some (c.toNat - 87)
  else if 'A' ≤ c ∧ c ≤ 'F' then some (c.toNat - 55)
  else none

/-- Parse the body of a JSON string literal (the opening quote already
consumed), returning its characters and the input after the closing quote.
Escapes are the strict JSON ones; `\uXXXX` is supported for scalar
values. -/
def parseStringBody : List Char → Option (List Char × List Char)
  | [] => none
  | '"' :: rest => some ([], rest)
  | '\\' :: 'u' :: h1 :: h2 :: h3 :: h4 :: rest =>
    (match hexVal h1, hexVal h2, hexVal h3, hexVal h4 with
     | some a, some b, some c, some d =>
       (parseStringBody rest).map fun (s, r) =>
         (Char.ofNat (((a * 16 + b) * 16 + c) * 16 + d) :: s, r)
     | _, _, _, _ => none)
  | '\\' :: e :: rest =>
    (match e with
     | '"' => some '"'
     | '\\' => some '\\'
     | '/' => some '/'
     | 'b' => some (Char.ofNat 8)
     | 'f' => some (Char.ofNat 12)
     | 'n' => some '\n'
     | 'r' => some '\r'
     | 't' => some '\t'
     | _ => none).bind fun c =>
      (parseStringBody rest).map fun (s, r) => (c :: s, r)
  | c :: rest =>
    if c.toNat < 32 then none
    else (parseStringBody rest).map fun (s, r) => (c :: s, r)

mutual

/-- Parse one JSON value. -/
def parseVal : Nat → List Char → Option (Json × List Char)
  | 0, _ => none
  | fuel + 1, cs =>
    match skipJsonWs cs with
    | 'n' :: 'u' :: 'l' :: 'l' :: rest => some (.jnull, rest)
    | 't' :: 'r' :: 'u' :: 'e' :: rest => some (.jbool true, rest)
    | 'f' :: 'a' :: 'l' :: 's' :: 'e' :: rest => some (.jbool false, rest)
    | '"' :: rest =>
      (parseStringBody rest).map fun (s, r) => (.jstr (String.mk s), r)
    | '[' :: rest =>
      (match skipJsonWs rest with
       | ']' :: r2 => some (.jarr .nil, r2)
       | other => parseElems fuel other .nil)
    | '\x7b' :: rest =>
      (match skipJsonWs rest with
       | '\x7d' :: r2 => some (.jobj .nil, r2)
       | other => parseMembers fuel other .nil)
    | '-' :: rest =>
      (parseNat rest).map fun (n, r) => (.jnum (-(n : Int)), r)
    | c :: rest =>
      if c.isDigit then (parseNat (c :: rest)).map fun (n, r) => (.jnum (n : Int), r)
      else none
    | [] => none

/-- Parse the elements of a non-empty JSON array, accumulating in reverse. -/
def parseElems : Nat → List Char → JsonList → Option (Json × List Char)
  | 0, _, _ => none
  | fuel + 1, cs, acc =>
    match parseVal fuel cs with
    | none => none
    | some (v, rest) =>
      match skipJsonWs rest with
      | ',' :: r2 => parseElems fuel r2 (.cons v acc)
      | ']' :: r2 => some (.jarr (revInto (.cons v acc) .nil), r2)
      | _ => none

/-- Parse the members of a non-empty JSON object; duplicate keys overwrite
in place via `JsonFields.setKey`. -/
def parseMembers : Nat → List Char → JsonFields → Option (Json × List Char)
  | 0, _, _ => none
  | fuel + 1, cs, acc =>
    match skipJsonWs cs with
    | '"' :: rest =>
      (match parseStringBody rest with
       | none => none
       | some (kchars, r2) =>
         match skipJsonWs r2 with
         | ':' :: r3 =>
           (match parseVal fuel r3 with
            | none => none
            | some (v, r4) =>
              let acc2 := acc.setKey (String.mk kchars) v
              match skipJsonWs r4 with
              | ',' :: r5 => parseMembers fuel r5 acc2
              | '\x7d' :: r5 => some (.jobj acc2, r5)
              | _ => none)
         | _ => none)
    | _ => none

/-- Reverse a `JsonList` onto an accumulator. -/
def revInto : JsonList → JsonList → JsonList
  | .nil, acc => acc
  | .cons x tl, acc => revInto tl (.cons x acc)

end

/-- `JSON.parse` of one input line: a value followed by only whitespace. -/
def parseJson (s : String) : Option Json :=
  match parseVal (2 * s.length + 8) s.data with
  | some (v, rest) => if skipJsonWs rest = [] then some v else none
  | none => none

/-! ## JavaScript string runtime helpers -/

/-- The whitespace class used by `String.prototype.trim` and the regular
expression class `\s` (the ASCII part, which covers the servers' inputs). -/
def jsWs (c : Char) : Bool :=
  c = ' ' || c = '\t' || c = '\n' || c = '\r' || c = Char.ofNat 11 || c = Char.ofNat 12

/-- `line.trim()`. -/
def jsTrim (s : String) : String :=
  String.mk (((s.data.dropWhile jsWs).reverse.dropWhile jsWs).reverse)

/-- Worker for `splitWsRuns`: `cur` is the current field (reversed), and
`inRun` records whether the previous character was whitespace (so that a
maximal run acts as a single separator). -/
def splitWsAux : List Char → List Char → Bool → List String
  | [], cur, _ => [String.mk cur.reverse]
  | c :: rest, cur, inRun =>
    if jsWs c then
      if inRun then splitWsAux rest cur true
      else String.mk cur.reverse :: splitWsAux rest [] true
    else splitWsAux rest (c :: cur) false

/-- `s.split(/\s+/)`: fields separated by maximal whitespace runs; a
leading or trailing run contributes an empty first or last field, exactly
as in JavaScript. -/
def splitWsRuns (s : String) : List String := splitWsAux s.data [] false

/-- JavaScript string `length`: the number of UTF-16 code units, i.e. 2
for characters beyond the Basic Multilingual Plane. -/
def utf16Length (s : String) : Nat :=
  s.data.foldl (fun n c => n + (if c.toNat < 65536 then 1 else 2)) 0

/-! ## zod schema validation

The servers validate `params.arguments` with zod object schemas.  A failed
`schema.parse` throws a `ZodError` carrying a list of issues; an issue is
abstracted here to its `path` and `message` (the fields the servers'
error envelopes surface through `err.errors`). -/

/-- One zod validation issue (its `path` and `message`). -/
structure ZodIssue where
  path : List String
  message : String
deriving DecidableEq, Repr

/-- The JSON shape of one issue inside `err.errors`. -/
def issueToJson (i : ZodIssue) : Json :=
  Json.obj [("path", Json.arr (i.path.map Json.jstr)), ("message", .jstr i.message)]

/-- The JSON shape of `err.errors`. -/
def issuesToJson (issues : List ZodIssue) : Json :=
  Json.arr (issues.map issueToJson)

/-- zod's name for the runtime type of a value (`undefined` for absent). -/
def zodTypeName : Option Json → String
  | none => "undefined"
  | some .jnull => "null"
  | some (.jbool _) => "boolean"
  | some (.jnum _) => "number"
  | some (.jstr _) => "string"
  | some (.jarr _) => "array"
  | some (.jobj _) => "object"

/-- `z.object(...)` root check: the value must be a JSON object. -/
def zodObjectCheck (args : Option Json) : Except (List ZodIssue) JsonFields :=
  match args with
  | none => .error [⟨[], "Required"⟩]
  | some (.jobj fs) => .ok fs
  | some v => .error [⟨[], "Expected object, received " ++ zodTypeName (some v)⟩]

/-- `z.string()` at field `k` of an object. -/
def zodStringField (fs : JsonFields) (k : String) : Except (List ZodIssue) String :=
  match fs.get k with
  | some (.jstr s) => .ok s
  | some v => .error [⟨[k], "Expected string, received " ++ zodTypeName (some v)⟩]
  | none => .error [⟨[k], "Required"⟩]

/-- `z.number()` at field `k` of an object. -/
def zodNumberField (fs : JsonFields) (k : String) : Except (List ZodIssue) Int :=
  match fs.get k with
  | some (.jnum n) => .ok n
  | some v => .error [⟨[k], "Expected number, received " ++ zodTypeName (some v)⟩]
  | none => .error [⟨[k], "Required"⟩]

/-! ## Response envelopes

Both servers construct responses as object literals
`{jsonrpc: '2.0', id, result}` / `{jsonrpc: '2.0', id, error: {...}}`;
`JSON.stringify` drops a field whose value is `undefined`, so an absent
request `id` yields an envelope without an `id` key. -/

/-- The `id` field of an envelope: present exactly when the request
supplied one (an `undefined` id is dropped by `JSON.stringify`). -/
def idFields : Option Json → List (String × Json)
  | some v => [("id", v)]
  | none => []

/-- `{jsonrpc: '2.0', id, result}`. -/
def resultEnvelope (id : Option Json) (result : Json) : Json :=
  Json.obj ([("jsonrpc", .jstr "2.0")] ++ idFields id ++ [("result", result)])

/-- `{jsonrpc: '2.0', id, error: {code, message, data?}}`. -/
def errorEnvelope (id : Option Json) (code : Int) (message : String)
    (data : Option Json) : Json :=
  Json.obj ([("jsonrpc", .jstr "2.0")] ++ idFields id ++
    [("error", Json.obj ([("code", .jnum code), ("message", .jstr message)] ++
      (match data with | some d => [("data", d)] | none => [])))])

/-- A value thrown inside a handler's `try` block: either a `ZodError`
from `schema.parse` or a plain `Error` with a message. -/
inductive Thrown where
  | zodError (issues : List ZodIssue)
  | jsError (message : String)
deriving DecidableEq, Repr

namespace SimpleServer

/-! The simple server: tools `echo` and `add`, methods `capability.list`
and `tool.call`, a parse-error envelope numbered by the `nextId` counter. -/

/-- `echo` handler: `({message}) => ({echoed: message, length: message.length})`.
`length` is the JavaScript string length, i.e. UTF-16 code units. -/
def echoHandler (message : String) : Json :=
  Json.obj [("echoed", .jstr message), ("length", .jnum (utf16Length message))]

/-- `add` handler: `({a, b}) => ({sum: a + b})`. -/
def addHandler (a b : Int) : Json :=
  Json.obj [("sum", .jnum (a + b))]

/-- The `echo` tool's schema `z.object({message: z.string()})`. -/
def parseEchoArgs (args : Option Json) : Except (List ZodIssue) String :=
  match zodObjectCheck args with
  | .error e => .error e
  | .ok fs => zodStringField fs "message"

/-- The `add` tool's schema `z.object({a: z.number(), b: z.number()})`;
zod reports the issues of both fields. -/
def parseAddArgs (args : Option Json) : Except (List ZodIssue) (Int × Int) :=
  match zodObjectCheck args with
  | .error e => .error e
  | .ok fs =>
    match zodNumberField fs "a", zodNumberField fs "b" with
    | .ok a, .ok b => .ok (a, b)
    | .error e1, .error e2 => .error (e1 ++ e2)
    | .error e1, .ok _ => .error e1
    | .ok _, .error e2 => .error e2

/-- `listCapabilities()`: name, description and the placeholder
`inputSchema` (the source parses the literal `'{}'` in both ternary
branches) for the two registered tools, in registry insertion order. -/
def listCapabilities : Json :=
  Json.arr [
    Json.obj [("name", .jstr "echo"),
      ("description", .jstr "Echo back a message"),
      ("inputSchema", Json.obj [])],
    Json.obj [("name", .jstr "add"),
      ("description", .jstr "Add two numbers"),
      ("inputSchema", Json.obj [])]]

/-- `tool.call` body: resolve `params.name` in the registry, validate
`params.arguments`, run the handler.  A registry miss throws
`Unknown tool: <name>`.  (A `name` that collides with an
`Object.prototype` key would make the runtime throw a `TypeError`
instead; that path differs only in the thrown message, which no claim
touches, and is modelled as the unknown-tool throw.) -/
def callTool (name : Option Json) (args : Option Json) : Except Thrown Json :=
  match name with
  | some (.jstr "echo") =>
    (match parseEchoArgs args with
     | .error issues => .error (.zodError issues)
     | .ok message => .ok (echoHandler message))
  | some (.jstr "add") =>
    (match parseAddArgs args with
     | .error issues => .error (.zodError issues)
     | .ok (a, b) => .ok (addHandler a b))
  | other => .error (.jsError ("Unknown tool: " ++ jsDisplay other))

/-- The `try` block of `handleRequest`: dispatch on `method` and return
the `result` payload, or the thrown value. -/
def dispatch (msg : Json) : Except Thrown Json :=
  match jsGet msg "method" with
  | some (.jstr "capability.list") =>
    .ok (Json.obj [("tools", listCapabilities)])
  | some (.jstr "tool.call") =>
    let p := jsOrElse (jsGet msg "params") (Json.obj [])
    callTool (jsGet p "name") (jsGet p "arguments")
  | _ => .error (.jsError "Method not found")

/-- The `catch` block: a `ZodError` becomes `-32602` with the issues in
`data`; any other error becomes `-32000` with its message. -/
def finishRequest (id : Option Json) : Except Thrown Json → Json
  | .ok result => resultEnvelope id result
  | .error (.zodError issues) =>
    errorEnvelope id (-32602) "Invalid params" (some (issuesToJson issues))
  | .error (.jsError m) => errorEnvelope id (-32000) m none

/-- `handleRequest`: one response envelope per parsed message.  The
destructuring `const {id, method, params} = message` precedes the `try`,
so for a `null` message it throws into an unhandled promise rejection and
no response is sent (`none`). -/
def handleRequest (msg : Json) : Option Json :=
  match msg with
  | .jnull => none
  | _ => some (finishRequest (jsGet msg "id") (dispatch msg))

/-- The mutable process state: the `nextId` counter used to number
parse-error envelopes, and whether an unhandled rejection has killed the
process. -/
structure ServerState where
  nextId : Nat
  halted : Bool
deriving DecidableEq, Repr

/-- State at startup (`let nextId = 1`). -/
def initialState : ServerState := ⟨1, false⟩

/-- The `rl.on('line', ...)` callback for one input line: skip blank
lines, answer unparseable lines with a `-32700` envelope numbered
`nextId++`, otherwise run `handleRequest`. -/
def processLine (st : ServerState) (line : String) : ServerState × List Json :=
  if st.halted then (st, [])
  else if jsTrim line = "" then (st, [])
  else
    match parseJson line with
    | none =>
      ({ st with nextId := st.nextId + 1 },
       [errorEnvelope (some (.jnum (st.nextId : Int))) (-32700) "Parse error" none])
    | some msg =>
      match handleRequest msg with
      | some out => (st, [out])
      | none => ({ st with halted := true }, [])

/-- Sequential processing of a list of input lines. -/
def processLines (st : ServerState) : List String → List Json
  | [] => []
  | l :: rest =>
    let (st2, outs) := processLine st l
    outs ++ processLines st2 rest

end SimpleServer

namespace PromptsServer

/-! The prompts server: tool `markdown_summary`, prompt templates
`qa/basic` and `refactor/function`, methods `capability.list`,
`tool.call`, `prompts.list` and `prompts.build`.  Its single `catch`
turns every thrown value, `ZodError` included, into a `-32000`
envelope, and its parse-error envelope carries `id: null`. -/

/-- mustache.js HTML escaping of one character (the library's entity
map), applied to every `{{name}}` interpolation. -/
def escapeHtmlChar (c : Char) : String :=
  if c = '&' then "&amp;"
  else if c = '<' then "&lt;"
  else if c = '>' then "&gt;"
  else if c = '"' then "&quot;"
  else if c = Char.ofNat 39 then "&#39;"
  else if c = '/' then "&#x2F;"
  else if c = Char.ofNat 96 then "&#x60;"
  else if c = '=' then "&#x3D;"
  else String.mk [c]

/-- mustache.js HTML escaping of a string value. -/
def escapeHtml (s : String) : String :=
  s.data.foldl (fun acc c => acc ++ escapeHtmlChar c) ""

/-- Mustache view lookup: a missing variable renders as the empty
string. -/
def lookupVar (vars : List (String × String)) (k : String) : String :=
  match vars.find? (fun p => p.1 = k) with
  | some p => p.2
  | none => ""

/-- Scan to the closing `}}` of an interpolation tag, returning the tag
body and the remainder. -/
def findTagEnd : List Char → Option (List Char × List Char)
  | '\x7d' :: '\x7d' :: rest => some ([], rest)
  | c :: rest => (findTagEnd rest).map fun (nm, r) => (c :: nm, r)
  | [] => none

/-- `Mustache.render` restricted to interpolation tags `{{name}}`, the
only Mustache feature the registry's templates use: each tag is replaced
by the HTML-escaped value of the (whitespace-trimmed) variable name.
Substituted text is not re-scanned.  The fuel is structural bookkeeping;
one character is consumed per step. -/
def renderChars : Nat → List (String × String) → List Char → List Char
  | 0, _, _ => []
  | fuel + 1, vars, cs =>
    match cs with
    | '\x7b' :: '\x7b' :: rest =>
      (match findTagEnd rest with
       | some (nm, r2) =>
         (escapeHtml (lookupVar vars (jsTrim (String.mk nm)))).data ++
           renderChars fuel vars r2
       | none => '\x7b' :: '\x7b' :: renderChars fuel vars rest)
    | c :: rest => c :: renderChars fuel vars rest
    | [] => []

/-- `Mustache.render(template, view)` for the registry's templates. -/
def mustacheRender (template : String) (vars : List (String × String)) : String :=
  String.mk (renderChars (template.length + 1) vars template.data)

/-- The `qa/basic` template text. -/
def qaBasicTemplate : String :=
  "You are a helpful system. Answer the user question.\nContext: \x7b\x7bcontext\x7d\x7d\nQuestion: \x7b\x7bquestion\x7d\x7d\nAnswer:"

/-- The `refactor/function` template text. -/
def refactorFunctionTemplate : String :=
  "Refactor the following code to achieve: \x7b\x7bgoal\x7d\x7d\n\nCode:\n\x7b\x7bcode\x7d\x7d\n\nRefactored:"

/-- `z.string().optional()` at field `k`: absent is accepted, a present
non-string (including `null`) is an issue. -/
def zodOptStringField (fs : JsonFields) (k : String) :
    Except (List ZodIssue) (Option String) :=
  match fs.get k with
  | none => .ok none
  | some (.jstr s) => .ok (some s)
  | some v => .error [⟨[k], "Expected string, received " ++ zodTypeName (some v)⟩]

/-- The `qa/basic` schema
`z.object({question: z.string(), context: z.string().optional()})`,
collecting the issues of both fields; the parsed view binds the fields
that are present. -/
def parseQaVariables (v : Option Json) :
    Except (List ZodIssue) (List (String × String)) :=
  match zodObjectCheck v with
  | .error e => .error e
  | .ok fs =>
    match zodStringField fs "question", zodOptStringField fs "context" with
    | .ok q, .ok c =>
      .ok ([("question", q)] ++ (match c with
        | some s => [("context", s)]
        | none => []))
    | .error e1, .error e2 => .error (e1 ++ e2)
    | .error e1, .ok _ => .error e1
    | .ok _, .error e2 => .error e2

/-- The `refactor/function` schema
`z.object({code: z.string(), goal: z.string()})`, collecting the issues
of both fields. -/
def parseRefactorVariables (v : Option Json) :
    Except (List ZodIssue) (List (String × String)) :=
  match zodObjectCheck v with
  | .error e => .error e
  | .ok fs =>
    match zodStringField fs "code", zodStringField fs "goal" with
    | .ok c, .ok g => .ok [("code", c), ("goal", g)]
    | .error e1, .error e2 => .error (e1 ++ e2)
    | .error e1, .ok _ => .error e1
    | .ok _, .error e2 => .error e2

/-- The `markdown_summary` schema `z.object({content: z.string().min(1)})`. -/
def parseMarkdownSummaryArgs (args : Option Json) :
    Except (List ZodIssue) String :=
  match zodObjectCheck args with
  | .error e => .error e
  | .ok fs =>
    match zodStringField fs "content" with
    | .error e => .error e
    | .ok s =>
      if s = "" then .error [⟨["content"], "String must contain at least 1 character(s)"⟩]
      else .ok s

/-- `markdown_summary` handler:
`({content}) => ({summary: content.split(/\s+/).slice(0, 12).join(' ') + '...'})`. -/
def markdownSummaryHandler (content : String) : Json :=
  Json.obj [("summary",
    .jstr (String.intercalate " " ((splitWsRuns content).take 12) ++ "..."))]

/-- The `prompts.list` result (also the `prompts` half of
`capability.list`): names and descriptions in registry order. -/
def promptsListJson : Json :=
  Json.arr [
    Json.obj [("name", .jstr "qa/basic"),
      ("description", .jstr "Simple Q&A wrapper")],
    Json.obj [("name", .jstr "refactor/function"),
      ("description", .jstr "Refactor function prompt")]]

/-- `listCapabilities()`: tools and prompts with their descriptions. -/
def listCapabilities : Json :=
  Json.obj [
    ("tools", Json.arr [
      Json.obj [("name", .jstr "markdown_summary"),
        ("description", .jstr "Summarize a block of markdown text (simulated)")]]),
    ("prompts", promptsListJson)]

/-- `tool.call` body for the single registered tool (see
`SimpleServer.callTool` for the prototype-key caveat). -/
def callTool (name : Option Json) (args : Option Json) : Except Thrown Json :=
  match name with
  | some (.jstr "markdown_summary") =>
    (match parseMarkdownSummaryArgs args with
     | .error issues => .error (.zodError issues)
     | .ok content => .ok (markdownSummaryHandler content))
  | other => .error (.jsError ("Unknown tool: " ++ jsDisplay other))

/-- `prompts.build` body: resolve the template, validate
`variables || {}`, render. -/
def buildPrompt (name : Option Json) (vbls : Option Json) : Except Thrown Json :=
  match name with
  | some (.jstr "qa/basic") =>
    (match parseQaVariables (some (jsOrElse vbls (Json.obj []))) with
     | .error issues => .error (.zodError issues)
     | .ok vars => .ok (Json.obj [("prompt", .jstr (mustacheRender qaBasicTemplate vars))]))
  | some (.jstr "refactor/function") =>
    (match parseRefactorVariables (some (jsOrElse vbls (Json.obj []))) with
     | .error issues => .error (.zodError issues)
     | .ok vars => .ok (Json.obj [("prompt", .jstr (mustacheRender refactorFunctionTemplate vars))]))
  | other => .error (.jsError ("Unknown prompt: " ++ jsDisplay other))

/-- The `switch (method)` inside the `try` block. -/
def dispatch (msg : Json) : Except Thrown Json :=
  match jsGet msg "method" with
  | some (.jstr "capability.list") => .ok listCapabilities
  | some (.jstr "tool.call") =>
    let p := jsOrElse (jsGet msg "params") (Json.obj [])
    callTool (jsGet p "name") (jsGet p "arguments")
  | some (.jstr "prompts.list") => .ok promptsListJson
  | some (.jstr "prompts.build") =>
    let p := jsOrElse (jsGet msg "params") (Json.obj [])
    buildPrompt (jsGet p "name") (jsGet p "variables")
  | _ => .error (.jsError "Method not found")

/-- The message of a caught value: for a `ZodError` the runtime
serializes the issue list (whitespace aside), for a plain `Error` its
message.  No claim depends on the `ZodError` rendering. -/
def thrownMessage : Thrown → String
  | .zodError issues => serializeJson (issuesToJson issues)
  | .jsError m => m

/-- The single `catch`: every thrown value becomes a `-32000` envelope
with the thrown message and no `data`. -/
def finishRequest (id : Option Json) : Except Thrown Json → Json
  | .ok result => resultEnvelope id result
  | .error t => errorEnvelope id (-32000) (thrownMessage t) none

/-- `handleRequest`: as in the simple server, the destructuring of a
`null` message throws outside any effective handler, so no response is
sent. -/
def handleRequest (msg : Json) : Option Json :=
  match msg with
  | .jnull => none
  | _ => some (finishRequest (jsGet msg "id") (dispatch msg))

/-- The line callback: skip blank lines; a parse failure is answered
inside the catch with an `id: null` `-32700` envelope; the only process
state is whether an unhandled rejection has occurred. -/
def processLine (halted : Bool) (line : String) : Bool × List Json :=
  if halted then (halted, [])
  else if jsTrim line = "" then (halted, [])
  else
    match parseJson line with
    | none => (halted, [errorEnvelope (some .jnull) (-32700) "Parse error" none])
    | some msg =>
      match handleRequest msg with
      | some out => (halted, [out])
      | none => (true, [])

/-- Sequential processing of a list of input lines. -/
def processLines (halted : Bool) : List String → List Json
  | [] => []
  | l :: rest =>
    let (h2, outs) := processLine halted l
    outs ++ processLines h2 rest

end PromptsServer

/-! ## Statement helpers -/

/-- Whether a response (a JSON object) carries key `k`. -/
def hasKeyJson (j : Json) (k : String) : Bool :=
  match j with
  | .jobj fs => fs.hasKey k
  | _ => false

/-- A field of the `error` object of a response envelope. -/
def errorField (out : Json) (k : String) : Option Json :=
  (jsGet out "error").bind fun e => jsGet e k

/-- Number of occurrences of `pat` as a substring of `s` (number of
starting positions at which `pat` matches). -/
def countSubstr (s pat : String) : Nat :=
  (List.range (s.data.length + 1)).countP fun i => pat.data.isPrefixOf (s.data.drop i)

/-! ## Concrete scenario inputs -/

/-- The spec's `tool.call` scenario request line. -/
def addScenarioLine : String :=
  "\x7b\"jsonrpc\":\"2.0\",\"id\":2,\"method\":\"tool.call\",\"params\":\x7b\"name\":\"add\",\"arguments\":\x7b\"a\":2,\"b\":5\x7d\x7d\x7d"

/-- The spec's `prompts.build` round-trip request line. -/
def qaBuildScenarioLine : String :=
  "\x7b\"jsonrpc\":\"2.0\",\"id\":3,\"method\":\"prompts.build\",\"params\":\x7b\"name\":\"qa/basic\",\"variables\":\x7b\"question\":\"What is MCP?\",\"context\":\"Protocol for tools\"\x7d\x7d\x7d"

/-- A `tool.call` of `markdown_summary` whose `content` argument is a
number, failing the tool's schema. -/
def badContentLine : String :=
  "\x7b\"jsonrpc\":\"2.0\",\"id\":4,\"method\":\"tool.call\",\"params\":\x7b\"name\":\"markdown_summary\",\"arguments\":\x7b\"content\":123\x7d\x7d\x7d"

/-! ## Basic lemmas about envelopes and line handling -/

/-- The envelope id field is exactly the id the envelope was built with. -/
theorem jsGet_resultEnvelope_id (id : Option Json) (r : Json) :
    jsGet (resultEnvelope id r) "id" = id := by
  cases id <;>
    simp [resultEnvelope, Json.obj, JsonFields.ofList, idFields, jsGet, JsonFields.get]

/-- The envelope id field is exactly the id the envelope was built with. -/
theorem jsGet_errorEnvelope_id (id : Option Json) (c : Int) (m : String) (d : Option Json) :
    jsGet (errorEnvelope id c m d) "id" = id := by
  cases id <;>
    simp [errorEnvelope, Json.obj, JsonFields.ofList, idFields, jsGet, JsonFields.get]

/-- A result envelope has a `result` key and no `error` key. -/
theorem hasKey_resultEnvelope (id : Option Json) (r : Json) :
    hasKeyJson (resultEnvelope id r) "result" = true ∧
    hasKeyJson (resultEnvelope id r) "error" = false := by
  cases id <;>
    simp [resultEnvelope, Json.obj, JsonFields.ofList, idFields, hasKeyJson, JsonFields.hasKey]

/-- An error envelope has an `error` key and no `result` key. -/
theorem hasKey_errorEnvelope (id : Option Json) (c : Int) (m : String) (d : Option Json) :
    hasKeyJson (errorEnvelope id c m d) "error" = true ∧
    hasKeyJson (errorEnvelope id c m d) "result" = false := by
  cases id <;>
    simp [errorEnvelope, Json.obj, JsonFields.ofList, idFields, hasKeyJson, JsonFields.hasKey]

/-- The `code`, `message` and `data` fields of an error envelope. -/
theorem errorField_errorEnvelope (id : Option Json) (c : Int) (m : String) (d : Option Json) :
    errorField (errorEnvelope id c m d) "code" = some (.jnum c) ∧
    errorField (errorEnvelope id c m d) "message" = some (.jstr m) ∧
    errorField (errorEnvelope id c m d) "data" = d := by
  cases id <;> cases d <;>
    simp [errorEnvelope, Json.obj, JsonFields.ofList, idFields, errorField, jsGet,
      JsonFields.get, Option.bind]

/-- The `result` field of a result envelope. -/
theorem jsGet_resultEnvelope_result (id : Option Json) (r : Json) :
    jsGet (resultEnvelope id r) "result" = some r := by
  cases id <;>
    simp [resultEnvelope, Json.obj, JsonFields.ofList, idFields, jsGet, JsonFields.get]

/-- For a non-`null` message the simple server always responds with the
envelope built by the catch-wrapped dispatch. -/
theorem SimpleServer.handleRequest_of_ne_null_simple (msg : Json) (h : msg ≠ .jnull) :
    SimpleServer.handleRequest msg =
      some (SimpleServer.finishRequest (jsGet msg "id") (SimpleServer.dispatch msg)) := by
  cases msg <;> first | exact absurd rfl h | rfl

/-- For a non-`null` message the prompts server always responds with the
envelope built by the catch-wrapped dispatch. -/
theorem PromptsServer.handleRequest_of_ne_null_prompts (msg : Json) (h : msg ≠ .jnull) :
    PromptsServer.handleRequest msg =
      some (PromptsServer.finishRequest (jsGet msg "id") (PromptsServer.dispatch msg)) := by
  cases msg <;> first | exact absurd rfl h | rfl

/-- The head of `dropWhile` output is an element of the input that fails
the predicate. -/
theorem dropWhile_head_mem_not (p : Char → Bool) :
    ∀ (cs : List Char) (c : Char) (r : List Char),
      cs.dropWhile p = c :: r → c ∈ cs ∧ p c = false := by
  intro cs
  induction cs with
  | nil => intro c r h; simp [List.dropWhile] at h
  | cons x xs ih =>
    intro c r h
    by_cases hx : p x
    · rw [List.dropWhile_cons_of_pos hx] at h
      rcases ih c r h with ⟨hm, hp⟩
      exact ⟨List.mem_cons_of_mem x hm, hp⟩
    · rw [List.dropWhile_cons_of_neg hx] at h
      cases h
      exact ⟨List.mem_cons_self _ _, by simpa using hx⟩

/-- A line consisting only of JavaScript whitespace is not valid JSON. -/
theorem parseVal_all_ws (fuel : Nat) (cs : List Char)
    (h : ∀ c ∈ cs, jsWs c = true) : parseVal fuel cs = none := by
  cases fuel with
  | zero => rfl
  | succ n =>
    rcases hsk : skipJsonWs cs with _ | ⟨c, r⟩
    · simp only [parseVal, hsk]
    · rcases dropWhile_head_mem_not jsonWs cs c r hsk with ⟨hmem, hnws⟩
      have hws := h c hmem
      have hc : c = Char.ofNat 11 ∨ c = Char.ofNat 12 := by
        simp only [jsWs, Bool.or_eq_true, decide_eq_true_eq] at hws
        simp only [jsonWs, Bool.or_eq_false_iff, decide_eq_false_iff_not] at hnws
        tauto
      rcases hc with rfl | rfl <;> simp only [parseVal, hsk] <;> rfl

/-- Blank (whitespace-only) lines, which the servers skip before parsing,
are exactly the lines `JSON.parse` could never accept anyway. -/
theorem parseJson_of_trim_empty (line : String) (h : jsTrim line = "") :
    parseJson line = none := by
  have hdata : (((line.data.dropWhile jsWs).reverse.dropWhile jsWs).reverse) = [] := by
    have := congrArg String.data h
    simpa [jsTrim] using this
  have hrev : (line.data.dropWhile jsWs).reverse.dropWhile jsWs = [] := by
    simpa [List.reverse_eq_nil_iff] using hdata
  have hall : ∀ c ∈ line.data, jsWs c = true := by
    intro c hc
    have hsplit := List.takeWhile_append_dropWhile (p := jsWs) (l := line.data)
    rw [← hsplit] at hc
    rcases List.mem_append.mp hc with htk | hdr
    · exact List.mem_takeWhile_imp htk
    · have : c ∈ (line.data.dropWhile jsWs).reverse := List.mem_reverse.mpr hdr
      exact List.dropWhile_eq_nil_iff.mp hrev c this
  unfold parseJson
  rw [parseVal_all_ws _ _ hall]

/-- The simple server's dispatch on `method = capability.list`. -/
theorem SimpleServer.dispatch_capability_list_simple (msg : Json)
    (h : jsGet msg "method" = some (.jstr "capability.list")) :
    SimpleServer.dispatch msg = .ok (Json.obj [("tools", SimpleServer.listCapabilities)]) := by
  unfold SimpleServer.dispatch
  rw [h]
  rfl

/-- The prompts server's dispatch on `method = capability.list`. -/
theorem PromptsServer.dispatch_capability_list_prompts (msg : Json)
    (h : jsGet msg "method" = some (.jstr "capability.list")) :
    PromptsServer.dispatch msg = .ok PromptsServer.listCapabilities := by
  unfold PromptsServer.dispatch
  rw [h]
  rfl

/-- A `method` matching no simple-server branch falls through to the
`Method not found` throw. -/
theorem SimpleServer.dispatch_unknown_simple (msg : Json)
    (h1 : jsGet msg "method" ≠ some (.jstr "capability.list"))
    (h2 : jsGet msg "method" ≠ some (.jstr "tool.call")) :
    SimpleServer.dispatch msg = .error (.jsError "Method not found") := by
  unfold SimpleServer.dispatch
  split <;> simp_all

/-- A `method` matching no prompts-server branch falls through to the
`Method not found` throw. -/
theorem PromptsServer.dispatch_unknown_prompts (msg : Json)
    (h1 : jsGet msg "method" ≠ some (.jstr "capability.list"))
    (h2 : jsGet msg "method" ≠ some (.jstr "tool.call"))
    (h3 : jsGet msg "method" ≠ some (.jstr "prompts.list"))
    (h4 : jsGet msg "method" ≠ some (.jstr "prompts.build")) :
    PromptsServer.dispatch msg = .error (.jsError "Method not found") := by
  unfold PromptsServer.dispatch
  split <;> simp_all

/-- C9: for every input line that is empty or consists only of
whitespace, each server emits no output at all for that line and simply
proceeds to the next line. -/
theorem blank_line_no_output :
    (∀ (st : SimpleServer.ServerState) (line : String) (rest : List String),
      jsTrim line = "" →
      SimpleServer.processLine st line = (st, []) ∧
      SimpleServer.processLines st (line :: rest) = SimpleServer.processLines st rest) ∧
    (∀ (halted : Bool) (line : String) (rest : List String),
      jsTrim line = "" →
      PromptsServer.processLine halted line = (halted, []) ∧
      PromptsServer.processLines halted (line :: rest) = PromptsServer.processLines halted rest) := by
  constructor
  · intro st line rest h
    have h1 : SimpleServer.processLine st line = (st, []) := by
      unfold SimpleServer.processLine
      by_cases hh : st.halted <;> simp [hh, h]
    exact ⟨h1, by simp [SimpleServer.processLines, h1]⟩
  · intro halted line rest h
    have h1 : PromptsServer.processLine halted line = (halted, []) := by
      unfold PromptsServer.processLine
      by_cases hh : halted <;> simp [hh, h]
    exact ⟨h1, by simp [PromptsServer.processLines, h1]⟩

/-- Witness for C9 at a space-only and a tab-only line. -/
theorem blank_line_no_output_witness :
    SimpleServer.processLine SimpleServer.initialState "  " = (SimpleServer.initialState, []) ∧
    PromptsServer.processLine false "\t" = (false, []) :=
  ⟨(blank_line_no_output.1 SimpleServer.initialState "  " [] (by decide)).1,
   (blank_line_no_output.2 false "\t" [] (by decide)).1⟩

/-- A successful dispatch is wrapped as a result envelope carrying the
request id (simple server). -/
theorem SimpleServer.handleRequest_result_simple (m o payload : Json)
    (hne : m ≠ .jnull) (hd : SimpleServer.dispatch m = .ok payload)
    (ho : SimpleServer.handleRequest m = some o) :
    o = resultEnvelope (jsGet m "id") payload := by
  rw [SimpleServer.handleRequest_of_ne_null_simple m hne, hd] at ho
  cases ho
  rfl

/-- A successful dispatch is wrapped as a result envelope carrying the
request id (prompts server). -/
theorem PromptsServer.handleRequest_result_prompts (m o payload : Json)
    (hne : m ≠ .jnull) (hd : PromptsServer.dispatch m = .ok payload)
    (ho : PromptsServer.handleRequest m = some o) :
    o = resultEnvelope (jsGet m "id") payload := by
  rw [PromptsServer.handleRequest_of_ne_null_prompts m hne, hd] at ho
  cases ho
  rfl

/-- C7: `capability.list` is idempotent.  On either server, any two
requests whose `method` is `capability.list` receive responses with
identical `result` payloads (the static registry listing). -/
theorem capability_list_idempotent :
    (∀ (m1 m2 o1 o2 : Json),
      jsGet m1 "method" = some (.jstr "capability.list") →
      jsGet m2 "method" = some (.jstr "capability.list") →
      SimpleServer.handleRequest m1 = some o1 →
      SimpleServer.handleRequest m2 = some o2 →
      jsGet o1 "result" = some (Json.obj [("tools", SimpleServer.listCapabilities)]) ∧
      jsGet o1 "result" = jsGet o2 "result") ∧
    (∀ (m1 m2 o1 o2 : Json),
      jsGet m1 "method" = some (.jstr "capability.list") →
      jsGet m2 "method" = some (.jstr "capability.list") →
      PromptsServer.handleRequest m1 = some o1 →
      PromptsServer.handleRequest m2 = some o2 →
      jsGet o1 "result" = some PromptsServer.listCapabilities ∧
      jsGet o1 "result" = jsGet o2 "result") := by
  constructor
  · have key : ∀ (m o : Json), jsGet m "method" = some (.jstr "capability.list") →
        SimpleServer.handleRequest m = some o →
        jsGet o "result" = some (Json.obj [("tools", SimpleServer.listCapabilities)]) := by
      intro m o hm ho
      have hne : m ≠ .jnull := by intro e; subst e; simp [jsGet] at hm
      rw [SimpleServer.handleRequest_result_simple m o _ hne
        (SimpleServer.dispatch_capability_list_simple m hm) ho]
      exact jsGet_resultEnvelope_result _ _
    intro m1 m2 o1 o2 h1 h2 ho1 ho2
    exact ⟨key m1 o1 h1 ho1, by rw [key m1 o1 h1 ho1, key m2 o2 h2 ho2]⟩
  · have key : ∀ (m o : Json), jsGet m "method" = some (.jstr "capability.list") →
        PromptsServer.handleRequest m = some o →
        jsGet o "result" = some PromptsServer.listCapabilities := by
      intro m o hm ho
      have hne : m ≠ .jnull := by intro e; subst e; simp [jsGet] at hm
      rw [PromptsServer.handleRequest_result_prompts m o _ hne
        (PromptsServer.dispatch_capability_list_prompts m hm) ho]
      exact jsGet_resultEnvelope_result _ _
    intro m1 m2 o1 o2 h1 h2 ho1 ho2
    exact ⟨key m1 o1 h1 ho1, by rw [key m1 o1 h1 ho1, key m2 o2 h2 ho2]⟩

/-- Witness for C7: two concrete `capability.list` requests with
different ids receive the same `result` payload. -/
theorem capability_list_idempotent_witness :
    jsGet (resultEnvelope (some (.jnum 1)) (Json.obj [("tools", SimpleServer.listCapabilities)])) "result" =
      some (Json.obj [("tools", SimpleServer.listCapabilities)]) ∧
    jsGet (resultEnvelope (some (.jnum 1)) (Json.obj [("tools", SimpleServer.listCapabilities)])) "result" =
      jsGet (resultEnvelope (some (.jnum 2)) (Json.obj [("tools", SimpleServer.listCapabilities)])) "result" :=
  capability_list_idempotent.1
    (Json.obj [("id", .jnum 1), ("method", .jstr "capability.list")])
    (Json.obj [("id", .jnum 2), ("method", .jstr "capability.list")])
    (resultEnvelope (some (.jnum 1)) (Json.obj [("tools", SimpleServer.listCapabilities)]))
    (resultEnvelope (some (.jnum 2)) (Json.obj [("tools", SimpleServer.listCapabilities)]))
    (by decide) (by decide) (by decide) (by decide)

/-- C4: for every well-formed request whose method is in neither handler
registry, the response is an error envelope with the original id, no
`result` key, code `-32000` and message `Method not found`. -/
theorem unknown_method_error_envelope :
    (∀ (msg : Json), msg ≠ .jnull →
      jsGet msg "method" ≠ some (.jstr "capability.list") →
      jsGet msg "method" ≠ some (.jstr "tool.call") →
      SimpleServer.handleRequest msg =
        some (errorEnvelope (jsGet msg "id") (-32000) "Method not found" none) ∧
      hasKeyJson (errorEnvelope (jsGet msg "id") (-32000) "Method not found" none) "result" = false ∧
      jsGet (errorEnvelope (jsGet msg "id") (-32000) "Method not found" none) "id" = jsGet msg "id" ∧
      errorField (errorEnvelope (jsGet msg "id") (-32000) "Method not found" none) "code" = some (.jnum (-32000)) ∧
      errorField (errorEnvelope (jsGet msg "id") (-32000) "Method not found" none) "message" = some (.jstr "Method not found")) ∧
    (∀ (msg : Json), msg ≠ .jnull →
      jsGet msg "method" ≠ some (.jstr "capability.list") →
      jsGet msg "method" ≠ some (.jstr "tool.call") →
      jsGet msg "method" ≠ some (.jstr "prompts.list") →
      jsGet msg "method" ≠ some (.jstr "prompts.build") →
      PromptsServer.handleRequest msg =
        some (errorEnvelope (jsGet msg "id") (-32000) "Method not found" none) ∧
      hasKeyJson (errorEnvelope (jsGet msg "id") (-32000) "Method not found" none) "result" = false ∧
      jsGet (errorEnvelope (jsGet msg "id") (-32000) "Method not found" none) "id" = jsGet msg "id") := by
  constructor
  · intro msg hne h1 h2
    have hh := SimpleServer.handleRequest_of_ne_null_simple msg hne
    rw [SimpleServer.dispatch_unknown_simple msg h1 h2] at hh
    exact ⟨hh, (hasKey_errorEnvelope _ _ _ _).2, jsGet_errorEnvelope_id _ _ _ _,
      (errorField_errorEnvelope _ _ _ _).1, (errorField_errorEnvelope _ _ _ _).2.1⟩
  · intro msg hne h1 h2 h3 h4
    have hh := PromptsServer.handleRequest_of_ne_null_prompts msg hne
    rw [PromptsServer.dispatch_unknown_prompts msg h1 h2 h3 h4] at hh
    exact ⟨hh, (hasKey_errorEnvelope _ _ _ _).2, jsGet_errorEnvelope_id _ _ _ _⟩

/-- Witness for C4 at concrete unknown-method requests. -/
theorem unknown_method_error_envelope_witness :
    SimpleServer.handleRequest (Json.obj [("id", .jnum 5), ("method", .jstr "no.such")]) =
      some (errorEnvelope (some (.jnum 5)) (-32000) "Method not found" none) ∧
    PromptsServer.handleRequest (Json.obj [("id", .jnum 6), ("method", .jstr "shutdown")]) =
      some (errorEnvelope (some (.jnum 6)) (-32000) "Method not found" none) :=
  ⟨(unknown_method_error_envelope.1 (Json.obj [("id", .jnum 5), ("method", .jstr "no.such")])
      (by decide) (by decide) (by decide)).1,
   (unknown_method_error_envelope.2 (Json.obj [("id", .jnum 6), ("method", .jstr "shutdown")])
      (by decide) (by decide) (by decide) (by decide) (by decide)).1⟩

/-- The simple server's dispatch on `method = tool.call` hands
`params.name` and `params.arguments` (with `params || {}`) to the tool
resolution. -/
theorem SimpleServer.dispatch_tool_call_simple (msg : Json)
    (hm : jsGet msg "method" = some (.jstr "tool.call")) :
    SimpleServer.dispatch msg =
      SimpleServer.callTool
        (jsGet (jsOrElse (jsGet msg "params") (Json.obj [])) "name")
        (jsGet (jsOrElse (jsGet msg "params") (Json.obj [])) "arguments") := by
  unfold SimpleServer.dispatch
  rw [hm]
  rfl

/-- The prompts server's dispatch on `method = tool.call`. -/
theorem PromptsServer.dispatch_tool_call_prompts (msg : Json)
    (hm : jsGet msg "method" = some (.jstr "tool.call")) :
    PromptsServer.dispatch msg =
      PromptsServer.callTool
        (jsGet (jsOrElse (jsGet msg "params") (Json.obj [])) "name")
        (jsGet (jsOrElse (jsGet msg "params") (Json.obj [])) "arguments") := by
  unfold PromptsServer.dispatch
  rw [hm]
  rfl

/-- The prompts server's dispatch on `method = prompts.build`. -/
theorem PromptsServer.dispatch_prompts_build (msg : Json)
    (hm : jsGet msg "method" = some (.jstr "prompts.build")) :
    PromptsServer.dispatch msg =
      PromptsServer.buildPrompt
        (jsGet (jsOrElse (jsGet msg "params") (Json.obj [])) "name")
        (jsGet (jsOrElse (jsGet msg "params") (Json.obj [])) "variables") := by
  unfold PromptsServer.dispatch
  rw [hm]
  rfl

/-- C1: for every `tool.call` request whose `params.arguments` satisfy
the named tool's schema, the response `result` is the tool handler
applied to those arguments; in particular the spec's scenario request
`{"jsonrpc":"2.0","id":2,"method":"tool.call","params":{"name":"add","arguments":{"a":2,"b":5}}}`
produces exactly `{"jsonrpc":"2.0","id":2,"result":{"sum":7}}`. -/
theorem tool_call_result_is_handler :
    (∀ (msg p : Json) (s : String),
      jsGet msg "method" = some (.jstr "tool.call") →
      jsOrElse (jsGet msg "params") (Json.obj []) = p →
      jsGet p "name" = some (.jstr "echo") →
      SimpleServer.parseEchoArgs (jsGet p "arguments") = .ok s →
      SimpleServer.handleRequest msg =
        some (resultEnvelope (jsGet msg "id") (SimpleServer.echoHandler s))) ∧
    (∀ (msg p : Json) (a b : Int),
      jsGet msg "method" = some (.jstr "tool.call") →
      jsOrElse (jsGet msg "params") (Json.obj []) = p →
      jsGet p "name" = some (.jstr "add") →
      SimpleServer.parseAddArgs (jsGet p "arguments") = .ok (a, b) →
      SimpleServer.handleRequest msg =
        some (resultEnvelope (jsGet msg "id") (SimpleServer.addHandler a b))) ∧
    SimpleServer.processLines SimpleServer.initialState [addScenarioLine] =
      [resultEnvelope (some (.jnum 2)) (Json.obj [("sum", .jnum 7)])] ∧
    (SimpleServer.processLines SimpleServer.initialState [addScenarioLine]).map serializeJson =
      ["\x7b\"jsonrpc\":\"2.0\",\"id\":2,\"result\":\x7b\"sum\":7\x7d\x7d"] := by
  refine ⟨?_, ?_, by decide, by decide⟩
  · intro msg p s hm hp hn ha
    have hne : msg ≠ .jnull := by intro e; subst e; simp [jsGet] at hm
    have hd : SimpleServer.dispatch msg = .ok (SimpleServer.echoHandler s) := by
      rw [SimpleServer.dispatch_tool_call_simple msg hm, hp]
      unfold SimpleServer.callTool
      rw [hn, ha]
      rfl
    rw [SimpleServer.handleRequest_of_ne_null_simple msg hne, hd]
    rfl
  · intro msg p a b hm hp hn ha
    have hne : msg ≠ .jnull := by intro e; subst e; simp [jsGet] at hm
    have hd : SimpleServer.dispatch msg = .ok (SimpleServer.addHandler a b) := by
      rw [SimpleServer.dispatch_tool_call_simple msg hm, hp]
      unfold SimpleServer.callTool
      rw [hn, ha]
      rfl
    rw [SimpleServer.handleRequest_of_ne_null_simple msg hne, hd]
    rfl

/-- Witness for C1: the add tool applied to `{a: 2, b: 5}` through the
full request path. -/
theorem tool_call_result_is_handler_witness :
    SimpleServer.handleRequest
      (Json.obj [("id", .jnum 2), ("method", .jstr "tool.call"),
        ("params", Json.obj [("name", .jstr "add"),
          ("arguments", Json.obj [("a", .jnum 2), ("b", .jnum 5)])])]) =
      some (resultEnvelope (some (.jnum 2)) (SimpleServer.addHandler 2 5)) :=
  tool_call_result_is_handler.2.1
    (Json.obj [("id", .jnum 2), ("method", .jstr "tool.call"),
      ("params", Json.obj [("name", .jstr "add"),
        ("arguments", Json.obj [("a", .jnum 2), ("b", .jnum 5)])])])
    (Json.obj [("name", .jstr "add"),
      ("arguments", Json.obj [("a", .jnum 2), ("b", .jnum 5)])])
    2 5 (by rfl) (by rfl) (by rfl) (by rfl)

/-- Folding the UTF-16 unit count over characters inside the Basic
Multilingual Plane adds exactly one per character. -/
theorem utf16_foldl_bmp :
    ∀ (cs : List Char) (acc : Nat), (∀ c ∈ cs, c.toNat < 65536) →
      cs.foldl (fun n c => n + (if c.toNat < 65536 then 1 else 2)) acc = acc + cs.length := by
  intro cs
  induction cs with
  | nil => intro acc _; simp
  | cons x xs ih =>
    intro acc h
    have hx : x.toNat < 65536 := h x (List.mem_cons_self x xs)
    have hrest : ∀ c ∈ xs, c.toNat < 65536 := fun c hc => h c (List.mem_cons_of_mem x hc)
    simp only [List.foldl_cons, if_pos hx, List.length_cons]
    rw [ih (acc + 1) hrest]
    omega

/-- C10 (amended): for every `tool.call` of the `echo` tool with a
string `message`, the result's `echoed` field is the message verbatim
and its `length` field is the number of UTF-16 code units of the
message, which coincides with the number of characters exactly when
every character lies in the Basic Multilingual Plane. -/
theorem echo_result_verbatim_and_utf16 :
    (∀ (msg p : Json) (s : String),
      jsGet msg "method" = some (.jstr "tool.call") →
      jsOrElse (jsGet msg "params") (Json.obj []) = p →
      jsGet p "name" = some (.jstr "echo") →
      SimpleServer.parseEchoArgs (jsGet p "arguments") = .ok s →
      SimpleServer.handleRequest msg =
        some (resultEnvelope (jsGet msg "id")
          (Json.obj [("echoed", .jstr s), ("length", .jnum (utf16Length s))]))) ∧
    (∀ (s : String), (∀ c ∈ s.data, c.toNat < 65536) → utf16Length s = s.length) := by
  constructor
  · intro msg p s hm hp hn ha
    have hne : msg ≠ .jnull := by intro e; subst e; simp [jsGet] at hm
    have hd : SimpleServer.dispatch msg =
        .ok (Json.obj [("echoed", .jstr s), ("length", .jnum (utf16Length s))]) := by
      rw [SimpleServer.dispatch_tool_call_simple msg hm, hp]
      unfold SimpleServer.callTool
      rw [hn, ha]
      rfl
    rw [SimpleServer.handleRequest_of_ne_null_simple msg hne, hd]
    rfl
  · intro s h
    unfold utf16Length
    rw [utf16_foldl_bmp s.data 0 h]
    simp only [String.length]
    omega

/-- Counterexample for C10 as stated: the single-character message
`"😀"` (U+1F600, outside the BMP) is echoed with `length` 2, while its
number of characters is 1. -/
theorem echo_length_not_char_count :
    SimpleServer.handleRequest
      (Json.obj [("id", .jnum 9), ("method", .jstr "tool.call"),
        ("params", Json.obj [("name", .jstr "echo"),
          ("arguments", Json.obj [("message", .jstr "😀")])])]) =
      some (resultEnvelope (some (.jnum 9))
        (Json.obj [("echoed", .jstr "😀"), ("length", .jnum 2)])) ∧
    "😀".length = 1 ∧ (2 : Int) ≠ 1 := by
  refine ⟨by rfl, by rfl, by decide⟩

/-- Witness for C10 (amended) at the message `"hi"`. -/
theorem echo_result_verbatim_and_utf16_witness :
    SimpleServer.handleRequest
      (Json.obj [("id", .jnum 1), ("method", .jstr "tool.call"),
        ("params", Json.obj [("name", .jstr "echo"),
          ("arguments", Json.obj [("message", .jstr "hi")])])]) =
      some (resultEnvelope (some (.jnum 1))
        (Json.obj [("echoed", .jstr "hi"), ("length", .jnum (utf16Length "hi"))])) ∧
    utf16Length "hi" = "hi".length :=
  ⟨echo_result_verbatim_and_utf16.1
      (Json.obj [("id", .jnum 1), ("method", .jstr "tool.call"),
        ("params", Json.obj [("name", .jstr "echo"),
          ("arguments", Json.obj [("message", .jstr "hi")])])])
      (Json.obj [("name", .jstr "echo"),
        ("arguments", Json.obj [("message", .jstr "hi")])])
      "hi" (by rfl) (by rfl) (by rfl) (by rfl),
   echo_result_verbatim_and_utf16.2 "hi" (by decide)⟩

/-- C2 (amended): for every input line that is not valid JSON, each
server emits exactly one error envelope with code `-32700` and continues
with the next lines; the prompts server's envelope has `id` `null` while
the simple server numbers it from its `nextId` counter (1 for the first
such line). -/
theorem malformed_line_single_error_and_continue :
    (∀ (st : SimpleServer.ServerState) (line : String) (rest : List String),
      st.halted = false → jsTrim line ≠ "" → parseJson line = none →
      SimpleServer.processLine st line =
        ({ st with nextId := st.nextId + 1 },
         [errorEnvelope (some (.jnum (st.nextId : Int))) (-32700) "Parse error" none]) ∧
      SimpleServer.processLines st (line :: rest) =
        errorEnvelope (some (.jnum (st.nextId : Int))) (-32700) "Parse error" none ::
          SimpleServer.processLines { st with nextId := st.nextId + 1 } rest) ∧
    (∀ (line : String) (rest : List String),
      jsTrim line ≠ "" → parseJson line = none →
      PromptsServer.processLine false line =
        (false, [errorEnvelope (some .jnull) (-32700) "Parse error" none]) ∧
      PromptsServer.processLines false (line :: rest) =
        errorEnvelope (some .jnull) (-32700) "Parse error" none ::
          PromptsServer.processLines false rest) := by
  constructor
  · intro st line rest hh ht hp
    have h1 : SimpleServer.processLine st line =
        ({ st with nextId := st.nextId + 1 },
         [errorEnvelope (some (.jnum (st.nextId : Int))) (-32700) "Parse error" none]) := by
      unfold SimpleServer.processLine
      simp [hh, ht, hp]
    exact ⟨h1, by simp [SimpleServer.processLines, h1]⟩
  · intro line rest ht hp
    have h1 : PromptsServer.processLine false line =
        (false, [errorEnvelope (some .jnull) (-32700) "Parse error" none]) := by
      unfold PromptsServer.processLine
      simp [ht, hp]
    exact ⟨h1, by simp [PromptsServer.processLines, h1]⟩

/-- Counterexample for C2 as stated: on the simple server, the first
malformed line is answered with `id` 1 (the `nextId` counter), not
`id` `null`. -/
theorem parse_error_id_is_counter_not_null :
    jsTrim "\x7b" ≠ "" ∧ parseJson "\x7b" = none ∧
    (SimpleServer.processLine SimpleServer.initialState "\x7b").2 =
      [errorEnvelope (some (.jnum 1)) (-32700) "Parse error" none] ∧
    jsGet (errorEnvelope (some (.jnum 1)) (-32700) "Parse error" none) "id" = some (.jnum 1) ∧
    some (Json.jnum 1) ≠ some Json.jnull := by
  refine ⟨by decide, by rfl, by rfl, by rfl, by decide⟩

/-- Witness for C2 (amended) at the malformed line `nope`. -/
theorem malformed_line_witness :
    SimpleServer.processLine SimpleServer.initialState "nope" =
      ({ SimpleServer.initialState with nextId := 2 },
       [errorEnvelope (some (.jnum 1)) (-32700) "Parse error" none]) ∧
    PromptsServer.processLine false "nope" =
      (false, [errorEnvelope (some .jnull) (-32700) "Parse error" none]) :=
  ⟨(malformed_line_single_error_and_continue.1 SimpleServer.initialState "nope" []
      rfl (by decide) (by rfl)).1,
   (malformed_line_single_error_and_continue.2 "nope" [] (by decide) (by rfl)).1⟩

/-- C3 (amended): a request whose params fail the resolved tool's or
template's schema is answered by the simple server with code `-32602`
and the validation issues in `data`, but by the prompts server (whose
single catch does not special-case `ZodError`) with code `-32000` and no
`data` field. -/
theorem schema_validation_error_codes :
    (∀ (msg p : Json) (issues : List ZodIssue),
      jsGet msg "method" = some (.jstr "tool.call") →
      jsOrElse (jsGet msg "params") (Json.obj []) = p →
      ((jsGet p "name" = some (.jstr "echo") ∧
        SimpleServer.parseEchoArgs (jsGet p "arguments") = .error issues) ∨
       (jsGet p "name" = some (.jstr "add") ∧
        SimpleServer.parseAddArgs (jsGet p "arguments") = .error issues)) →
      SimpleServer.handleRequest msg =
        some (errorEnvelope (jsGet msg "id") (-32602) "Invalid params"
          (some (issuesToJson issues))) ∧
      errorField (errorEnvelope (jsGet msg "id") (-32602) "Invalid params"
          (some (issuesToJson issues))) "data" = some (issuesToJson issues)) ∧
    (∀ (msg p : Json) (issues : List ZodIssue),
      jsGet msg "method" = some (.jstr "tool.call") →
      jsOrElse (jsGet msg "params") (Json.obj []) = p →
      jsGet p "name" = some (.jstr "markdown_summary") →
      PromptsServer.parseMarkdownSummaryArgs (jsGet p "arguments") = .error issues →
      PromptsServer.handleRequest msg =
        some (errorEnvelope (jsGet msg "id") (-32000)
          (PromptsServer.thrownMessage (.zodError issues)) none) ∧
      errorField (errorEnvelope (jsGet msg "id") (-32000)
          (PromptsServer.thrownMessage (.zodError issues)) none) "data" = none) ∧
    (∀ (msg p : Json) (issues : List ZodIssue),
      jsGet msg "method" = some (.jstr "prompts.build") →
      jsOrElse (jsGet msg "params") (Json.obj []) = p →
      ((jsGet p "name" = some (.jstr "qa/basic") ∧
        PromptsServer.parseQaVariables
          (some (jsOrElse (jsGet p "variables") (Json.obj []))) = .error issues) ∨
       (jsGet p "name" = some (.jstr "refactor/function") ∧
        PromptsServer.parseRefactorVariables
          (some (jsOrElse (jsGet p "variables") (Json.obj []))) = .error issues)) →
      PromptsServer.handleRequest msg =
        some (errorEnvelope (jsGet msg "id") (-32000)
          (PromptsServer.thrownMessage (.zodError issues)) none)) := by
  refine ⟨?_, ?_, ?_⟩
  · intro msg p issues hm hp hcase
    have hne : msg ≠ .jnull := by intro e; subst e; simp [jsGet] at hm
    have hd : SimpleServer.dispatch msg = .error (.zodError issues) := by
      rw [SimpleServer.dispatch_tool_call_simple msg hm, hp]
      unfold SimpleServer.callTool
      rcases hcase with ⟨hn, he⟩ | ⟨hn, he⟩ <;> rw [hn, he] <;> rfl
    refine ⟨?_, (errorField_errorEnvelope _ _ _ _).2.2⟩
    rw [SimpleServer.handleRequest_of_ne_null_simple msg hne, hd]
    rfl
  · intro msg p issues hm hp hn ha
    have hne : msg ≠ .jnull := by intro e; subst e; simp [jsGet] at hm
    have hd : PromptsServer.dispatch msg = .error (.zodError issues) := by
      rw [PromptsServer.dispatch_tool_call_prompts msg hm, hp]
      unfold PromptsServer.callTool
      rw [hn, ha]
      rfl
    refine ⟨?_, (errorField_errorEnvelope _ _ _ _).2.2⟩
    rw [PromptsServer.handleRequest_of_ne_null_prompts msg hne, hd]
    rfl
  · intro msg p issues hm hp hcase
    have hne : msg ≠ .jnull := by intro e; subst e; simp [jsGet] at hm
    have hd : PromptsServer.dispatch msg = .error (.zodError issues) := by
      rw [PromptsServer.dispatch_prompts_build msg hm, hp]
      unfold PromptsServer.buildPrompt
      rcases hcase with ⟨hn, he⟩ | ⟨hn, he⟩ <;> rw [hn, he] <;> rfl
    rw [PromptsServer.handleRequest_of_ne_null_prompts msg hne, hd]
    rfl

/-- Counterexample for C3 as stated: on the prompts server a
`markdown_summary` call whose `content` is a number (a schema failure)
is answered with code `-32000` and no `data`, not `-32602`. -/
theorem prompts_validation_code_not_32602 :
    PromptsServer.parseMarkdownSummaryArgs (some (Json.obj [("content", .jnum 123)])) =
      .error [⟨["content"], "Expected string, received number"⟩] ∧
    ((PromptsServer.processLine false badContentLine).2.map fun o => errorField o "code") =
      [some (.jnum (-32000))] ∧
    ((PromptsServer.processLine false badContentLine).2.map fun o => errorField o "data") =
      [none] ∧
    some (Json.jnum (-32000)) ≠ some (Json.jnum (-32602)) := by
  refine ⟨by rfl, by rfl, by rfl, by decide⟩

/-- Witness for C3 (amended): an `add` call with a string `a` and a
missing `b` is answered by the simple server with `-32602` and both
issues in `data`. -/
theorem schema_validation_error_codes_witness :
    SimpleServer.handleRequest
      (Json.obj [("id", .jnum 3), ("method", .jstr "tool.call"),
        ("params", Json.obj [("name", .jstr "add"),
          ("arguments", Json.obj [("a", .jstr "x")])])]) =
      some (errorEnvelope (some (.jnum 3)) (-32602) "Invalid params"
        (some (issuesToJson [⟨["a"], "Expected number, received string"⟩,
          ⟨["b"], "Required"⟩]))) :=
  (schema_validation_error_codes.1
    (Json.obj [("id", .jnum 3), ("method", .jstr "tool.call"),
      ("params", Json.obj [("name", .jstr "add"),
        ("arguments", Json.obj [("a", .jstr "x")])])])
    (Json.obj [("name", .jstr "add"), ("arguments", Json.obj [("a", .jstr "x")])])
    [⟨["a"], "Expected number, received string"⟩, ⟨["b"], "Required"⟩]
    (by rfl) (by rfl) (Or.inr ⟨by rfl, by rfl⟩)).1

/-- The envelope the simple server's catch builds always carries the
request id. -/
theorem SimpleServer.jsGet_finishRequest_id_simple (id : Option Json) (e : Except Thrown Json) :
    jsGet (SimpleServer.finishRequest id e) "id" = id := by
  cases e with
  | ok r => simpa [SimpleServer.finishRequest] using jsGet_resultEnvelope_id id r
  | error t =>
    cases t <;> simp [SimpleServer.finishRequest, jsGet_errorEnvelope_id]

/-- The envelope the prompts server's catch builds always carries the
request id. -/
theorem PromptsServer.jsGet_finishRequest_id_prompts (id : Option Json) (e : Except Thrown Json) :
    jsGet (PromptsServer.finishRequest id e) "id" = id := by
  cases e with
  | ok r => simpa [PromptsServer.finishRequest] using jsGet_resultEnvelope_id id r
  | error t => simp [PromptsServer.finishRequest, jsGet_errorEnvelope_id]

/-- C5 (amended): every input line that parses to a JSON value other
than `null` receives exactly one response envelope, whose `id` equals
the request's `id` (both absent when the request has none); a line
parsing to `null` produces no response at all, because the id/method
destructuring throws outside the catch. -/
theorem parsed_line_single_response :
    (∀ (st : SimpleServer.ServerState) (line : String) (msg : Json),
      st.halted = false → parseJson line = some msg → msg ≠ .jnull →
      ∃ out, SimpleServer.processLine st line = (st, [out]) ∧
        jsGet out "id" = jsGet msg "id") ∧
    (∀ (line : String) (msg : Json),
      parseJson line = some msg → msg ≠ .jnull →
      ∃ out, PromptsServer.processLine false line = (false, [out]) ∧
        jsGet out "id" = jsGet msg "id") := by
  constructor
  · intro st line msg hh hp hne
    have ht : jsTrim line ≠ "" := by
      intro e
      rw [parseJson_of_trim_empty line e] at hp
      simp at hp
    refine ⟨SimpleServer.finishRequest (jsGet msg "id") (SimpleServer.dispatch msg), ?_, ?_⟩
    · unfold SimpleServer.processLine
      simp [hh, ht, hp, SimpleServer.handleRequest_of_ne_null_simple msg hne]
    · exact SimpleServer.jsGet_finishRequest_id_simple _ _
  · intro line msg hp hne
    have ht : jsTrim line ≠ "" := by
      intro e
      rw [parseJson_of_trim_empty line e] at hp
      simp at hp
    refine ⟨PromptsServer.finishRequest (jsGet msg "id") (PromptsServer.dispatch msg), ?_, ?_⟩
    · unfold PromptsServer.processLine
      simp [ht, hp, PromptsServer.handleRequest_of_ne_null_prompts msg hne]
    · exact PromptsServer.jsGet_finishRequest_id_prompts _ _

/-- Counterexample for C5 as stated: the line `null` is valid JSON, yet
neither server writes any response envelope for it. -/
theorem null_line_no_response :
    parseJson "null" = some Json.jnull ∧
    (SimpleServer.processLine SimpleServer.initialState "null").2 = [] ∧
    (PromptsServer.processLine false "null").2 = [] := by
  refine ⟨by rfl, by rfl, by rfl⟩

/-- Witness for C5 (amended) at the line `{}` (an empty request
object). -/
theorem parsed_line_single_response_witness :
    (∃ out, SimpleServer.processLine SimpleServer.initialState "\x7b\x7d" =
        (SimpleServer.initialState, [out]) ∧
      jsGet out "id" = jsGet (Json.jobj .nil) "id") ∧
    (∃ out, PromptsServer.processLine false "\x7b\x7d" = (false, [out]) ∧
      jsGet out "id" = jsGet (Json.jobj .nil) "id") :=
  ⟨parsed_line_single_response.1 SimpleServer.initialState "\x7b\x7d" (Json.jobj .nil)
      rfl (by rfl) (by decide),
   parsed_line_single_response.2 "\x7b\x7d" (Json.jobj .nil) (by rfl) (by decide)⟩

set_option maxRecDepth 16384 in
/-- C6: `prompts.build` of `qa/basic` with the spec's question and
context renders both values into the template, each exactly once, the
context right after `Context: ` and the question right after
`Question: `. -/
theorem qa_basic_build_renders_each_once :
    (PromptsServer.processLine false qaBuildScenarioLine).2 =
      [resultEnvelope (some (.jnum 3)) (Json.obj [("prompt", .jstr
        ("You are a helpful system. Answer the user question.\nContext: " ++
         "Protocol for tools" ++ "\nQuestion: " ++ "What is MCP?" ++ "\nAnswer:"))])] ∧
    countSubstr
      "You are a helpful system. Answer the user question.\nContext: Protocol for tools\nQuestion: What is MCP?\nAnswer:"
      "What is MCP?" = 1 ∧
    countSubstr
      "You are a helpful system. Answer the user question.\nContext: Protocol for tools\nQuestion: What is MCP?\nAnswer:"
      "Protocol for tools" = 1 := by
  refine ⟨by rfl, by rfl, by rfl⟩

/-- The catch-built envelope of the simple server has exactly one of the
keys `result` / `error`. -/
theorem SimpleServer.finishRequest_xor_simple (id : Option Json) (e : Except Thrown Json) :
    Bool.xor (hasKeyJson (SimpleServer.finishRequest id e) "result")
      (hasKeyJson (SimpleServer.finishRequest id e) "error") = true := by
  cases e with
  | ok r =>
    simp [SimpleServer.finishRequest, (hasKey_resultEnvelope id r).1,
      (hasKey_resultEnvelope id r).2]
  | error t =>
    cases t <;>
      simp [SimpleServer.finishRequest, (hasKey_errorEnvelope id _ _ _).1,
        (hasKey_errorEnvelope id _ _ _).2]

/-- The catch-built envelope of the prompts server has exactly one of
the keys `result` / `error`. -/
theorem PromptsServer.finishRequest_xor_prompts (id : Option Json) (e : Except Thrown Json) :
    Bool.xor (hasKeyJson (PromptsServer.finishRequest id e) "result")
      (hasKeyJson (PromptsServer.finishRequest id e) "error") = true := by
  cases e with
  | ok r =>
    simp [PromptsServer.finishRequest, (hasKey_resultEnvelope id r).1,
      (hasKey_resultEnvelope id r).2]
  | error t =>
    simp [PromptsServer.finishRequest, (hasKey_errorEnvelope id _ _ _).1,
      (hasKey_errorEnvelope id _ _ _).2]

/-- C8: every envelope either server emits in reply to an input line
carries exactly one of the keys `result` and `error` - never both,
never neither. -/
theorem response_exactly_one_result_or_error :
    (∀ (st : SimpleServer.ServerState) (line : String) (out : Json),
      out ∈ (SimpleServer.processLine st line).2 →
      Bool.xor (hasKeyJson out "result") (hasKeyJson out "error") = true) ∧
    (∀ (halted : Bool) (line : String) (out : Json),
      out ∈ (PromptsServer.processLine halted line).2 →
      Bool.xor (hasKeyJson out "result") (hasKeyJson out "error") = true) := by
  constructor
  · intro st line out hmem
    by_cases hh : st.halted
    · have heq : SimpleServer.processLine st line = (st, []) := by
        unfold SimpleServer.processLine; simp [hh]
      rw [heq] at hmem; simp at hmem
    · by_cases ht : jsTrim line = ""
      · have heq : SimpleServer.processLine st line = (st, []) := by
          unfold SimpleServer.processLine; simp [hh, ht]
        rw [heq] at hmem; simp at hmem
      · rcases hpj : parseJson line with _ | msg
        · have heq : SimpleServer.processLine st line =
              ({ st with nextId := st.nextId + 1 },
               [errorEnvelope (some (.jnum (st.nextId : Int))) (-32700) "Parse error" none]) := by
            unfold SimpleServer.processLine; simp [hh, ht, hpj]
          rw [heq] at hmem
          simp at hmem
          rw [hmem]
          simp [(hasKey_errorEnvelope (some (.jnum (st.nextId : Int))) (-32700) "Parse error" none).1,
            (hasKey_errorEnvelope (some (.jnum (st.nextId : Int))) (-32700) "Parse error" none).2]
        · by_cases hn : msg = .jnull
          · subst hn
            have heq : SimpleServer.processLine st line = ({ st with halted := true }, []) := by
              unfold SimpleServer.processLine
              simp [hh, ht, hpj, SimpleServer.handleRequest]
            rw [heq] at hmem; simp at hmem
          · have heq : SimpleServer.processLine st line =
                (st, [SimpleServer.finishRequest (jsGet msg "id") (SimpleServer.dispatch msg)]) := by
              unfold SimpleServer.processLine
              simp [hh, ht, hpj, SimpleServer.handleRequest_of_ne_null_simple msg hn]
            rw [heq] at hmem
            simp at hmem
            rw [hmem]
            exact SimpleServer.finishRequest_xor_simple _ _
  · intro halted line out hmem
    by_cases hh : halted
    · subst hh
      have heq : PromptsServer.processLine true line = (true, []) := by
        unfold PromptsServer.processLine; simp
      rw [heq] at hmem; simp at hmem
    · simp only [Bool.not_eq_true] at hh
      subst hh
      by_cases ht : jsTrim line = ""
      · have heq : PromptsServer.processLine false line = (false, []) := by
          unfold PromptsServer.processLine; simp [ht]
        rw [heq] at hmem; simp at hmem
      · rcases hpj : parseJson line with _ | msg
        · have heq : PromptsServer.processLine false line =
              (false, [errorEnvelope (some .jnull) (-32700) "Parse error" none]) := by
            unfold PromptsServer.processLine; simp [ht, hpj]
          rw [heq] at hmem
          simp at hmem
          rw [hmem]
          simp [(hasKey_errorEnvelope (some .jnull) (-32700) "Parse error" none).1,
            (hasKey_errorEnvelope (some .jnull) (-32700) "Parse error" none).2]
        · by_cases hn : msg = .jnull
          · subst hn
            have heq : PromptsServer.processLine false line = (true, []) := by
              unfold PromptsServer.processLine
              simp [ht, hpj, PromptsServer.handleRequest]
            rw [heq] at hmem; simp at hmem
          · have heq : PromptsServer.processLine false line =
                (false, [PromptsServer.finishRequest (jsGet msg "id") (PromptsServer.dispatch msg)]) := by
              unfold PromptsServer.processLine
              simp [ht, hpj, PromptsServer.handleRequest_of_ne_null_prompts msg hn]
            rw [heq] at hmem
            simp at hmem
            rw [hmem]
            exact PromptsServer.finishRequest_xor_prompts _ _

/-- Witness for C8: the add-scenario result envelope and a parse-error
envelope each carry exactly one of `result` / `error`. -/
theorem response_exactly_one_witness :
    Bool.xor
      (hasKeyJson (resultEnvelope (some (.jnum 2)) (Json.obj [("sum", .jnum 7)])) "result")
      (hasKeyJson (resultEnvelope (some (.jnum 2)) (Json.obj [("sum", .jnum 7)])) "error") = true ∧
    Bool.xor
      (hasKeyJson (errorEnvelope (some .jnull) (-32700) "Parse error" none) "result")
      (hasKeyJson (errorEnvelope (some .jnull) (-32700) "Parse error" none) "error") = true :=
  ⟨response_exactly_one_result_or_error.1 SimpleServer.initialState addScenarioLine
      (resultEnvelope (some (.jnum 2)) (Json.obj [("sum", .jnum 7)])) (by decide),
   response_exactly_one_result_or_error.2 false "oops"
      (errorEnvelope (some .jnull) (-32700) "Parse error" none) (by decide)⟩
